import Mathlib

/-!
Shallow embedding of the PaymentProcess payment pipeline
(claim grouping, validation, payment-center resolution and
service-line payment computation) together with proofs about it.

Monetary amounts are modelled as rationals; the Python `round(x, 2)`
builtin is modelled by `round2`, rounding to the nearest hundredth.
Optional string fields are `Option String`, with Python truthiness
(`None` and `""` are falsy) made explicit.
-/

/-- Model of `round(x, 2)`: round to the nearest multiple of 1/100. -/
def round2 (q : ℚ) : ℚ := ((round (q * 100) : ℤ) : ℚ) / 100

/-- Python `a or b` for an optional string `a`: `b` when `a` is `None` or empty. -/
def orElseStr (a : Option String) (b : String) : String :=
  match a with
  | none => b
  | some s => if s = "" then b else s

/-- Association-list lookup keyed by strings, modelling Python dict access. -/
def lookupA {α : Type} : List (String × α) → String → Option α
  | [], _ => none
  | (k, v) :: rest, key => if k = key then some v else lookupA rest key

/-- Enumeration `ClaimType` from `data/models/claim.py`. -/
inductive ClaimType where
  | MEDICAL
  | PHARMACY
  | DENTAL
deriving DecidableEq, Repr

/-- Enumeration `ClaimStatus` from `data/models/claim.py`. -/
inductive ClaimStatus where
  | OPEN
  | CLOSED
  | ADJUSTED
deriving DecidableEq, Repr

/-- Enumeration `FrequencyCode` from `data/models/claim.py`. -/
inductive FrequencyCode where
  | ORIGINAL
  | INTERIM_CONTINUING
  | INTERIM_FINAL
  | REPLACEMENT
  | VOID
deriving DecidableEq, Repr

/-- Enumeration `PaymentCenterType` from `data/models/payment_center.py`. -/
inductive PaymentCenterType where
  | PROVIDER
  | DMR
deriving DecidableEq, Repr

/-- The `.value` string of a `PaymentCenterType` member. -/
def PaymentCenterType.value : PaymentCenterType → String
  | .PROVIDER => "PROVIDER"
  | .DMR => "DMR"

/-- Model of `ServiceLineCore` from `data/models/claim.py`. -/
structure ServiceLineCore where
  service_code : String
  billed_amount : ℚ
  allowed_amount : ℚ
deriving DecidableEq, Repr

/-- Model of `Claim` from `data/models/claim.py`. -/
structure Claim where
  claim_id : String
  parent_claim_core_id : String
  claim_type : ClaimType
  status : ClaimStatus
  frequency_code : FrequencyCode
  tin : Option String := none
  npi : Option String := none
  member_id : Option String := none
  benefit_plan_id : Option String := none
  service_lines : List ServiceLineCore := []
deriving DecidableEq, Repr

/-- Model of `ParentGroup` from `data/models/claim.py`. -/
structure ParentGroup where
  parent_id : String
  paid_claims : List Claim := []
  void_claims : List Claim := []
  adjust_claims : List Claim := []
deriving DecidableEq, Repr

/-- Model of `ParentGroup.add_claim`: classify a claim into the void,
adjust or paid bucket, in that priority order. -/
def ParentGroup.add_claim (g : ParentGroup) (c : Claim) : ParentGroup :=
  if c.frequency_code = FrequencyCode.VOID then
    { g with void_claims := g.void_claims ++ [c] }
  else if c.status = ClaimStatus.ADJUSTED ∨ c.frequency_code = FrequencyCode.REPLACEMENT
      ∨ c.frequency_code = FrequencyCode.INTERIM_FINAL then
    { g with adjust_claims := g.adjust_claims ++ [c] }
  else
    { g with paid_claims := g.paid_claims ++ [c] }

/-- Model of `OverUnderRecord` from `data/models/over_under.py`. -/
structure OverUnderRecord where
  reference : String
  amount : ℚ
  type : String
deriving DecidableEq, Repr

/-- Model of `OUSummary` from `data/models/over_under.py`. -/
structure OUSummary where
  payment_center_id : ℕ
  previous_balance : ℚ
  records : List OverUnderRecord := []
deriving DecidableEq, Repr

/-- Model of `ServiceLine` from `data/models/payment.py`. -/
structure ServiceLine where
  service_code : String
  charge_amount : ℚ
  allowed_amount : ℚ
  quantity : ℚ
deriving DecidableEq, Repr

/-- Model of `ServiceLinePayment` from `data/models/payment.py`.
The metadata dict is modelled as a string-keyed association list. -/
structure ServiceLinePayment where
  service_line : ServiceLine
  calculated_amount : ℚ
  offsets_applied : ℚ
  metadata : List (String × String) := []
deriving DecidableEq, Repr

/-- Model of `ClaimPayment` from `data/models/payment.py`. -/
structure ClaimPayment where
  claim_id : String
  service_line_payments : List ServiceLinePayment := []
  total_amount : ℚ
  interest_amount : ℚ := 0
deriving DecidableEq, Repr

/-- Model of `PaymentContext` from `data/models/payment.py`. -/
structure PaymentContext where
  payment_event_id : String
  over_under : OUSummary
  settings : List (String × ℚ) := []
deriving DecidableEq, Repr

/-- Model of `InterestRules` from `data/models/event.py`. -/
structure InterestRules where
  rate : ℚ
  grace_period_days : ℤ
deriving DecidableEq, Repr

/-- Model of `PaymentEvent` from `data/models/event.py`, restricted to the
fields the payment computations read. -/
structure PaymentEvent where
  payment_event_id : String
deriving DecidableEq, Repr

/-- Model of `ServiceLineProcessor.compute_service_line` from
`core/service_line_processor.py`. -/
def compute_service_line (service_line : ServiceLine) (payment_event : PaymentEvent)
    (context : PaymentContext) : ServiceLinePayment :=
  let base_amount := service_line.allowed_amount * service_line.quantity
  let adjustment := (lookupA context.settings "adjustment_factor").getD 1
  let calculated_amount := round2 (base_amount * adjustment)
  let previous_balance := max context.over_under.previous_balance 0
  let offsets := min previous_balance (calculated_amount * (1/2))
  { service_line := service_line
    calculated_amount := calculated_amount
    offsets_applied := round2 offsets
    metadata := [("payment_event_id", payment_event.payment_event_id),
                 ("source", context.payment_event_id)] }

/-- The service-line payments synthesized by `rollup_to_claim` for the
service lines of one candidate claim. -/
def rollupLines (claim : Claim) : List ServiceLinePayment :=
  claim.service_lines.map fun sl =>
    { service_line :=
        { service_code := sl.service_code
          charge_amount := sl.billed_amount
          allowed_amount := sl.allowed_amount
          quantity := 1 }
      calculated_amount := sl.allowed_amount
      offsets_applied := 0
      metadata := [("claim_id", claim.claim_id)] }

/-- Model of `ServiceLineProcessor.rollup_to_claim` from
`core/service_line_processor.py`. -/
def rollup_to_claim (parent_group : ParentGroup) : ClaimPayment :=
  let candidates :=
    if parent_group.paid_claims ++ parent_group.adjust_claims = [] then
      parent_group.void_claims
    else
      parent_group.paid_claims ++ parent_group.adjust_claims
  { claim_id := parent_group.parent_id
    service_line_payments := candidates.flatMap rollupLines
    total_amount :=
      round2 ((candidates.flatMap fun c => c.service_lines.map (·.allowed_amount)).sum) }

/-- Model of `ServiceLineProcessor.apply_interest` from
`core/service_line_processor.py`.  The current date enters only through
`(date.today() - due_date).days`, modelled by the integer `days_since_due`. -/
def apply_interest (claim_payment : ClaimPayment) (rules : InterestRules)
    (days_since_due : ℤ) : ClaimPayment :=
  let days_late : ℤ := max (days_since_due - rules.grace_period_days) 0
  let interest := round2 (claim_payment.total_amount * rules.rate * (days_late : ℚ) / 365)
  { claim_payment with
    interest_amount := interest
    total_amount := round2 (claim_payment.total_amount + interest) }

/-- Model of `Finding` from `data/models/stats.py`. -/
structure Finding where
  severity : String
  message : String
  count : ℕ := 0
  sample_ids : List String := []
deriving DecidableEq, Repr

/-- Model of `ValidationReport` from `data/models/stats.py`. -/
structure ValidationReport where
  findings : List Finding := []
  blocked : Bool := false
deriving DecidableEq, Repr

/-- ASCII upper-casing of one character, as Python `str.upper` acts on the
severity strings in play. -/
def charUpper (c : Char) : Char :=
  if 97 ≤ c.toNat ∧ c.toNat ≤ 122 then Char.ofNat (c.toNat - 32) else c

/-- Model of Python `str.upper` on ASCII strings. -/
def strUpper (s : String) : String := String.mk (s.data.map charUpper)

/-- Model of `is_critical` from `core/validation.py`: Python upper-cases the
severity before comparing, so the check is case-insensitive. -/
def is_critical (finding : Finding) : Bool :=
  strUpper finding.severity = "CRITICAL"

/-- The Python membership test `frequency_code in FrequencyCode`, spelled out
over the enumeration members. -/
def memFrequencyCode (f : FrequencyCode) : Bool :=
  f = FrequencyCode.ORIGINAL ∨ f = FrequencyCode.INTERIM_CONTINUING
    ∨ f = FrequencyCode.INTERIM_FINAL ∨ f = FrequencyCode.REPLACEMENT
    ∨ f = FrequencyCode.VOID

/-- Model of `Validation.validate_frequency_codes` from `core/validation.py`. -/
def validate_frequency_codes (claims : List Claim) : Finding :=
  let invalid := (claims.filter fun c => ¬ memFrequencyCode c.frequency_code).map (·.claim_id)
  { severity := if invalid = [] then "INFO" else "WARNING"
    message := if invalid = [] then "All frequency codes valid"
               else "Claims contain unsupported frequency codes"
    count := invalid.length
    sample_ids := invalid.take 5 }

/-- The duplicate scan inside `Validation.validate_duplicates`: walk the claim
ids keeping a seen-set, emitting every id already seen. -/
def dupScan : List String → List String → List String
  | [], _ => []
  | id :: rest, seen =>
    if id ∈ seen then id :: dupScan rest seen
    else dupScan rest (id :: seen)

/-- Model of `Validation.validate_duplicates` from `core/validation.py`. -/
def validate_duplicates (claims : List Claim) : Finding :=
  let duplicates := dupScan (claims.map (·.claim_id)) []
  { severity := if duplicates = [] then "INFO" else "CRITICAL"
    message := if duplicates = [] then "No duplicate claims detected"
               else "Duplicate claim identifiers detected"
    count := duplicates.length
    sample_ids := duplicates.take 5 }

/-- Model of `Validation.aggregate_findings` from `core/validation.py`.  The
validator instance state is the list of findings captured by prior checks. -/
def aggregate_findings (captured : List Finding) (findings : List Finding) :
    ValidationReport :=
  let combined := captured ++ findings
  { findings := combined
    blocked := combined.any is_critical }

/-- Model of `raise_if_blocking` from `core/validation.py`: raising is
modelled as returning `Except.error` with the exception message. -/
def raise_if_blocking (report : ValidationReport) (mode : String) :
    Except String Unit :=
  if report.blocked then
    let messages := String.intercalate "; "
      ((report.findings.filter is_critical).map fun f =>
        f.message ++ " (" ++ toString f.count ++ ")")
    Except.error (mode ++ " run blocked: " ++ messages)
  else
    Except.ok ()

/-- Model of `PaymentCenterSummary` from `data/models/payment_center.py`. -/
structure PaymentCenterSummary where
  existing_ids : List ℕ := []
  created_ws_ids : List ℕ := []
  created_prod_ids : List ℕ := []
  missing_keys : List String := []
deriving DecidableEq, Repr

/-- Model of `PaymentCenterClaims` from `data/models/payment_center.py`.
The totals dict is modelled as a string-keyed association list. -/
structure PaymentCenterClaims where
  payment_center_id : ℕ
  claim_ids : List String := []
  totals : List (String × ℚ) := []
deriving DecidableEq, Repr

/-- Mutable state of a `PaymentCenterManager` from `core/payment_center.py`:
the key-to-id cache (insertion ordered, as a Python dict) and the next id. -/
structure ManagerState where
  cache : List (String × ℕ)
  next_id : ℕ
deriving DecidableEq, Repr

/-- The freshly constructed `PaymentCenterManager`. -/
def ManagerState.init : ManagerState := { cache := [], next_id := 1 }

/-- The composite-key derivation applied per claim by
`PaymentCenterManager.derive_unique_keys`. -/
def deriveKey (claim : Claim) (pc_type : PaymentCenterType) : String :=
  let identifier :=
    if pc_type = PaymentCenterType.PROVIDER then
      orElseStr claim.tin (orElseStr claim.npi (orElseStr claim.member_id "UNKNOWN"))
    else
      orElseStr claim.member_id (orElseStr claim.benefit_plan_id "UNKNOWN")
  pc_type.value ++ ":" ++ identifier

/-- Model of `PaymentCenterManager.derive_unique_keys` from
`core/payment_center.py`; the Python set is modelled as a `Finset`. -/
def derive_unique_keys (claims : List Claim) (pc_type : PaymentCenterType) :
    Finset String :=
  (claims.map fun c => deriveKey c pc_type).toFinset

/-- One iteration of the loop in `PaymentCenterManager.create_missing_in_prod`:
state is the manager state, the summary accumulating created ids, and the
`created` mapping in iteration order. -/
def createStep (acc : ManagerState × PaymentCenterSummary × List (String × ℕ))
    (key : String) : ManagerState × PaymentCenterSummary × List (String × ℕ) :=
  let (s, summary, created) := acc
  match lookupA s.cache key with
  | some v => (s, summary, created ++ [(key, v)])
  | none =>
      ({ cache := s.cache ++ [(key, s.next_id)], next_id := s.next_id + 1 },
       { summary with
         created_ws_ids := summary.created_ws_ids ++ [s.next_id]
         created_prod_ids := summary.created_prod_ids ++ [s.next_id] },
       created ++ [(key, s.next_id)])

/-- Model of `PaymentCenterManager.create_missing_in_prod` from
`core/payment_center.py`: returns the updated manager state, the mutated
summary and the `created` mapping. -/
def create_missing_in_prod (s : ManagerState) (summary : PaymentCenterSummary) :
    ManagerState × PaymentCenterSummary × List (String × ℕ) :=
  summary.missing_keys.foldl createStep (s, summary, [])

/-- Lexicographic boolean comparison of character lists by code point,
modelling Python string comparison. -/
def lexLeCh : List Char → List Char → Bool
  | [], _ => true
  | _ :: _, [] => false
  | a :: as, b :: bs =>
    if a.toNat < b.toNat then true
    else if b.toNat < a.toNat then false
    else lexLeCh as bs

/-- Non-strict lexicographic order on strings by code point. -/
def strLe (a b : String) : Bool := lexLeCh a.data b.data

/-- Insert one keyed parent group into a list sorted by `strLe` on keys. -/
def insortPair (p : String × ParentGroup) :
    List (String × ParentGroup) → List (String × ParentGroup)
  | [] => [p]
  | q :: rest => if strLe p.1 q.1 then p :: q :: rest else q :: insortPair p rest

/-- Sort keyed parent groups by key, modelling Python `sorted` on dict items. -/
def sortPairs (l : List (String × ParentGroup)) : List (String × ParentGroup) :=
  l.foldr insortPair []

/-- One iteration of the loop in `group_by_parent`: `dict.setdefault` on an
insertion-ordered association list followed by `ParentGroup.add_claim`. -/
def insertGrouped : List (String × ParentGroup) → Claim → List (String × ParentGroup)
  | [], c =>
      [(c.parent_claim_core_id,
        ParentGroup.add_claim { parent_id := c.parent_claim_core_id } c)]
  | (k, g) :: rest, c =>
      if k = c.parent_claim_core_id then (k, ParentGroup.add_claim g c) :: rest
      else (k, g) :: insertGrouped rest c

/-- Model of `group_by_parent` from `core/claim_processor.py`: group claims by
`parent_claim_core_id` in arrival order, then sort the items by key. -/
def group_by_parent (claims : List Claim) : List (String × ParentGroup) :=
  sortPairs (claims.foldl insertGrouped [])

/-- The loop body of `ClaimTransformer.to_payment_center_claims`, iterating
the grouped items while threading the payment-center cache; the out-of-range
index on `adjust_claims[0]` is modelled as `Except.error`. -/
def tpcGo (pc_type : PaymentCenterType) :
    List (String × ParentGroup) → List PaymentCenterClaims → List (String × ℕ) →
    Except String (List PaymentCenterClaims × List (String × ℕ))
  | [], pcs, cache => Except.ok (pcs, cache)
  | (_, group) :: rest, pcs, cache =>
    let claim_ids :=
      (group.paid_claims ++ group.adjust_claims ++ group.void_claims).map (·.claim_id)
    if claim_ids = [] then tpcGo pc_type rest pcs cache
    else
      let sample : Option Claim :=
        match group.paid_claims with
        | p :: _ => some p
        | [] =>
          match group.adjust_claims with
          | a :: _ => some a
          | [] => none
      match sample with
      | none => Except.error "IndexError: list index out of range"
      | some sample_claim =>
        let key := deriveKey sample_claim pc_type
        let payment_center_id :=
          match lookupA cache key with
          | some v => v
          | none => cache.length + 1
        let cache2 :=
          match lookupA cache key with
          | some _ => cache
          | none => cache ++ [(key, cache.length + 1)]
        let totals : List (String × ℚ) :=
          [("claims", (claim_ids.length : ℚ)),
           ("service_lines",
             ((group.paid_claims.map fun c => c.service_lines.length).sum : ℚ)),
           ("projected_payment",
             (group.paid_claims.map fun c =>
               (c.service_lines.map (·.allowed_amount)).sum).sum)]
        tpcGo pc_type rest
          (pcs ++ [{ payment_center_id := payment_center_id
                     claim_ids := claim_ids
                     totals := totals }])
          cache2

/-- Model of `ClaimTransformer.attach_over_under` from
`core/claim_processor.py`. -/
def attach_over_under (pc_claims : List PaymentCenterClaims) (ou_summary : OUSummary) :
    List PaymentCenterClaims :=
  pc_claims.map fun entry =>
    if entry.payment_center_id = ou_summary.payment_center_id then
      { entry with
        totals := entry.totals ++
          [("previous_balance", ou_summary.previous_balance),
           ("ou_records", (ou_summary.records.length : ℚ))] }
    else entry

/-- Model of `ClaimTransformer.to_payment_center_claims` from
`core/claim_processor.py`. -/
def to_payment_center_claims (claims : List Claim) (pc_cache : List (String × ℕ))
    (pc_type : PaymentCenterType) (ou_summary : OUSummary) :
    Except String (List PaymentCenterClaims × List (String × ℕ)) :=
  match tpcGo pc_type (group_by_parent claims) [] pc_cache with
  | Except.error e => Except.error e
  | Except.ok (pcs, cache) => Except.ok (attach_over_under pcs ou_summary, cache)

/-- Whether `ParentGroup.add_claim` sends a claim to the void bucket. -/
def goesVoid (c : Claim) : Bool := c.frequency_code = FrequencyCode.VOID

/-- Whether `ParentGroup.add_claim` sends a claim to the adjust bucket. -/
def goesAdjust (c : Claim) : Bool :=
  ¬ goesVoid c ∧ (c.status = ClaimStatus.ADJUSTED
    ∨ c.frequency_code = FrequencyCode.REPLACEMENT
    ∨ c.frequency_code = FrequencyCode.INTERIM_FINAL)

/-- Whether `ParentGroup.add_claim` sends a claim to the paid bucket. -/
def goesPaid (c : Claim) : Bool := ¬ goesVoid c ∧ ¬ goesAdjust c

/-- Closed form for the association-list entry the grouping fold keeps for a
key: the claims with that parent folded into a fresh group, `none` when there
is neither a prior entry nor a matching claim. -/
def buildGroup (k : String) (g0 : Option ParentGroup) (cs : List Claim) :
    Option ParentGroup :=
  match g0, cs with
  | none, [] => none
  | _, _ => some (cs.foldl ParentGroup.add_claim (g0.getD { parent_id := k }))

/-- Count of ids in the first list that are new relative to the seen list,
counting each id once; companion to `dupScan`. -/
def distinctNew : List String → List String → ℕ
  | [], _ => 0
  | id :: rest, seen =>
    if id ∈ seen then distinctNew rest seen
    else 1 + distinctNew rest (id :: seen)

/-- Whether an optional string field is present and non-empty, the
truthiness test the spec words as first non-empty. -/
def nonEmptyOpt (o : Option String) : Bool := o.getD "" ≠ ""

/-- Modelled from the wording of the spec: the identifier segment of a
composite payment-center key, the first non-empty candidate field in the
priority order for the payment-center type, defaulting to UNKNOWN. -/
def identifierSpec (claim : Claim) (pc_type : PaymentCenterType) : String :=
  match pc_type with
  | PaymentCenterType.PROVIDER =>
    if nonEmptyOpt claim.tin then claim.tin.getD ""
    else if nonEmptyOpt claim.npi then claim.npi.getD ""
    else if nonEmptyOpt claim.member_id then claim.member_id.getD ""
    else "UNKNOWN"
  | PaymentCenterType.DMR =>
    if nonEmptyOpt claim.member_id then claim.member_id.getD ""
    else if nonEmptyOpt claim.benefit_plan_id then claim.benefit_plan_id.getD ""
    else "UNKNOWN"

/-- Well-formedness of a `PaymentCenterManager` state: cached ids are exactly
1..n in insertion order, the next id continues the sequence, and no key
occurs twice. -/
def WFManager (s : ManagerState) : Prop :=
  s.cache.map Prod.snd = List.range' 1 s.cache.length ∧
  s.next_id = s.cache.length + 1 ∧
  (s.cache.map Prod.fst).Nodup

/-- Sample void claim carrying one 100-amount service line. -/
def voidClaimV : Claim :=
  { claim_id := "V"
    parent_claim_core_id := "P"
    claim_type := ClaimType.MEDICAL
    status := ClaimStatus.OPEN
    frequency_code := FrequencyCode.VOID
    service_lines := [{ service_code := "SC", billed_amount := 100, allowed_amount := 100 }] }

/-- Sample parent group holding only the void claim `voidClaimV`. -/
def voidOnlyGroup : ParentGroup := { parent_id := "P", void_claims := [voidClaimV] }

/-- Sample paid claim carrying one 100-amount service line. -/
def paidClaimA : Claim :=
  { claim_id := "A"
    parent_claim_core_id := "P1"
    claim_type := ClaimType.MEDICAL
    status := ClaimStatus.OPEN
    frequency_code := FrequencyCode.ORIGINAL
    service_lines := [{ service_code := "SC", billed_amount := 120, allowed_amount := 100 }] }

/-- Sample parent group holding only the paid claim `paidClaimA`. -/
def paidOnlyGroup : ParentGroup := { parent_id := "P1", paid_claims := [paidClaimA] }

/-- Scenario claim: ORIGINAL/OPEN under PARENT-1, lands in the paid bucket. -/
def scClaim1 : Claim :=
  { claim_id := "C1"
    parent_claim_core_id := "PARENT-1"
    claim_type := ClaimType.MEDICAL
    status := ClaimStatus.OPEN
    frequency_code := FrequencyCode.ORIGINAL }

/-- Scenario claim: REPLACEMENT/ADJUSTED under PARENT-1, lands in the adjust
bucket. -/
def scClaim2 : Claim :=
  { claim_id := "C2"
    parent_claim_core_id := "PARENT-1"
    claim_type := ClaimType.MEDICAL
    status := ClaimStatus.ADJUSTED
    frequency_code := FrequencyCode.REPLACEMENT }

/-- Scenario claim: VOID under PARENT-1, lands in the void bucket. -/
def scClaim3 : Claim :=
  { claim_id := "C3"
    parent_claim_core_id := "PARENT-1"
    claim_type := ClaimType.MEDICAL
    status := ClaimStatus.OPEN
    frequency_code := FrequencyCode.VOID }

/-- The three scenario claims for one parent lineage. -/
def scClaims : List Claim := [scClaim1, scClaim2, scClaim3]

/-- Sample payment-center summary with two missing keys. -/
def pcSummAB : PaymentCenterSummary := { missing_keys := ["PROVIDER:A", "PROVIDER:B"] }

/-- Sample claim list containing a duplicated claim id. -/
def dupClaims : List Claim :=
  [{ claim_id := "A"
     parent_claim_core_id := "P"
     claim_type := ClaimType.MEDICAL
     status := ClaimStatus.OPEN
     frequency_code := FrequencyCode.ORIGINAL },
   { claim_id := "A"
     parent_claim_core_id := "P"
     claim_type := ClaimType.MEDICAL
     status := ClaimStatus.CLOSED
     frequency_code := FrequencyCode.ORIGINAL },
   { claim_id := "B"
     parent_claim_core_id := "P"
     claim_type := ClaimType.MEDICAL
     status := ClaimStatus.OPEN
     frequency_code := FrequencyCode.ORIGINAL }]

lemma round2_mono {x y : ℚ} (h : x ≤ y) : round2 x ≤ round2 y := by
  unfold round2
  have h1 : round (x * 100) ≤ round (y * 100) := by
    rw [round_eq, round_eq]
    exact Int.floor_mono (by linarith)
  have h2 : ((round (x * 100) : ℤ) : ℚ) ≤ ((round (y * 100) : ℤ) : ℚ) := by
    exact_mod_cast h1
  linarith

lemma round2_intDiv (m : ℤ) : round2 ((m : ℚ) / 100) = (m : ℚ) / 100 := by
  unfold round2
  rw [div_mul_cancel₀ _ (by norm_num : (100 : ℚ) ≠ 0), round_intCast]

lemma round2_zero : round2 0 = 0 := by
  unfold round2
  norm_num

lemma round2_round2 (x : ℚ) : round2 (round2 x) = round2 x := by
  have := round2_intDiv (round (x * 100))
  unfold round2 at this ⊢
  exact this

lemma round2_fix_add {x y : ℚ} (hx : round2 x = x) (hy : round2 y = y) :
    round2 (x + y) = x + y := by
  have hx2 : x = ((round (x * 100) : ℤ) : ℚ) / 100 := by
    conv_lhs => rw [← hx]
    rfl
  have hy2 : y = ((round (y * 100) : ℤ) : ℚ) / 100 := by
    conv_lhs => rw [← hy]
    rfl
  rw [hx2, hy2, div_add_div_same]
  have : ((round (x * 100) : ℤ) : ℚ) + ((round (y * 100) : ℤ) : ℚ) =
      (((round (x * 100) + round (y * 100) : ℤ)) : ℚ) := by push_cast; ring
  rw [this, round2_intDiv]


lemma memFrequencyCode_true (f : FrequencyCode) : memFrequencyCode f = true := by
  cases f <;> decide

/-- C10: for every list of well-typed claims, `validate_frequency_codes`
returns the INFO finding with count 0 and empty samples, because the
membership test against the `FrequencyCode` enumeration cannot fail at the
typed interface. -/
theorem validate_frequency_codes_always_clean (claims : List Claim) :
    validate_frequency_codes claims =
      { severity := "INFO", message := "All frequency codes valid",
        count := 0, sample_ids := [] } := by
  unfold validate_frequency_codes
  have hfilter : (claims.filter fun c => ¬ memFrequencyCode c.frequency_code) = [] := by
    induction claims with
    | nil => rfl
    | cons c rest ih =>
        simp [List.filter_cons, memFrequencyCode_true, ih]
  simp [hfilter]
  intro x _
  exact memFrequencyCode_true x.frequency_code

/-- C1 counterexample: with a negative allowed amount and a negative prior
balance, the computed offset is neither zero nor bounded by half the
calculated amount, refuting the two corollaries the claim draws. -/
theorem compute_service_line_claim_false :
    (compute_service_line
        { service_code := "S", charge_amount := 0, allowed_amount := -3/100, quantity := 1 }
        { payment_event_id := "E" }
        { payment_event_id := "CTX",
          over_under := { payment_center_id := 1, previous_balance := -5 } }).offsets_applied
      = -1/100 ∧
    (compute_service_line
        { service_code := "S", charge_amount := 0, allowed_amount := -3/100, quantity := 1 }
        { payment_event_id := "E" }
        { payment_event_id := "CTX",
          over_under := { payment_center_id := 1, previous_balance := -5 } }).offsets_applied
      ≠ 0 ∧
    (compute_service_line
        { service_code := "S", charge_amount := 0, allowed_amount := -3/100, quantity := 1 }
        { payment_event_id := "E" }
        { payment_event_id := "CTX",
          over_under := { payment_center_id := 1, previous_balance := -5 } }).calculated_amount
        * (1/2)
      < (compute_service_line
        { service_code := "S", charge_amount := 0, allowed_amount := -3/100, quantity := 1 }
        { payment_event_id := "E" }
        { payment_event_id := "CTX",
          over_under := { payment_center_id := 1, previous_balance := -5 } }).offsets_applied := by
  have hc : round2 (-3/100 * 1 * 1) = -3/100 := by
    unfold round2
    rw [round_eq]
    norm_num [Int.floor_eq_iff]
  have hmin : min (max (-5 : ℚ) 0) ((-3/100 : ℚ) * (1/2)) = -3/200 := by
    rw [max_eq_right (by norm_num : (-5 : ℚ) ≤ 0)]
    rw [min_eq_right (by norm_num : (-3/100 : ℚ) * (1/2) ≤ 0)]
    norm_num
  have ho : round2 (-3/200) = -1/100 := by
    unfold round2
    rw [round_eq]
    norm_num [Int.floor_eq_iff]
  unfold compute_service_line
  simp only [lookupA, Option.getD]
  rw [hc, hmin, ho]
  refine ⟨rfl, by norm_num, by norm_num⟩

/-- C1 (amended): `compute_service_line` computes
`calculated_amount = round2 (allowed * quantity * adjustment_factor)` with the
factor defaulting to 1, and
`offsets_applied = round2 (min (max previous_balance 0) (calculated * 1/2))`;
when the calculated amount is nonnegative a negative previous balance yields
offset 0, the offset never exceeds `round2` of half the calculated amount, and
the spec scenario evaluates to 180.0 and 90.0. -/
theorem compute_service_line_spec (sl : ServiceLine) (ev : PaymentEvent)
    (ctx : PaymentContext) :
    (compute_service_line sl ev ctx).calculated_amount =
      round2 (sl.allowed_amount * sl.quantity *
        (lookupA ctx.settings "adjustment_factor").getD 1) ∧
    (compute_service_line sl ev ctx).offsets_applied =
      round2 (min (max ctx.over_under.previous_balance 0)
        ((compute_service_line sl ev ctx).calculated_amount * (1/2))) ∧
    (0 ≤ (compute_service_line sl ev ctx).calculated_amount →
      ctx.over_under.previous_balance < 0 →
      (compute_service_line sl ev ctx).offsets_applied = 0) ∧
    (compute_service_line sl ev ctx).offsets_applied ≤
      round2 ((compute_service_line sl ev ctx).calculated_amount * (1/2)) ∧
    (compute_service_line
        { service_code := "S1", charge_amount := 100, allowed_amount := 100, quantity := 2 }
        { payment_event_id := "E" }
        { payment_event_id := "CTX",
          over_under := { payment_center_id := 1, previous_balance := 300 },
          settings := [("adjustment_factor", 9/10)] }).calculated_amount = 180 ∧
    (compute_service_line
        { service_code := "S1", charge_amount := 100, allowed_amount := 100, quantity := 2 }
        { payment_event_id := "E" }
        { payment_event_id := "CTX",
          over_under := { payment_center_id := 1, previous_balance := 300 },
          settings := [("adjustment_factor", 9/10)] }).offsets_applied = 90 := by
  have hoff : (compute_service_line sl ev ctx).offsets_applied =
      round2 (min (max ctx.over_under.previous_balance 0)
        ((compute_service_line sl ev ctx).calculated_amount * (1/2))) := rfl
  have hc180 : round2 ((100 : ℚ) * 2 * (9/10)) = 180 := by
    unfold round2
    rw [round_eq]
    norm_num [Int.floor_eq_iff]
  have hsc : (compute_service_line
      { service_code := "S1", charge_amount := 100, allowed_amount := 100, quantity := 2 }
      { payment_event_id := "E" }
      { payment_event_id := "CTX",
        over_under := { payment_center_id := 1, previous_balance := 300 },
        settings := [("adjustment_factor", 9/10)] }).calculated_amount = 180 := by
    show round2 ((100 : ℚ) * 2 *
      ((lookupA [("adjustment_factor", (9/10 : ℚ))] "adjustment_factor").getD 1)) = 180
    simp only [lookupA, if_pos rfl, Option.getD]
    exact hc180
  refine ⟨rfl, rfl, ?_, ?_, hsc, ?_⟩
  · intro h0 hneg
    rw [hoff, max_eq_right hneg.le,
      min_eq_left (by linarith : (0:ℚ) ≤ (compute_service_line sl ev ctx).calculated_amount * (1/2))]
    exact round2_zero
  · rw [hoff]
    exact round2_mono (min_le_right _ _)
  · show round2 (min (max (300 : ℚ) 0)
      ((compute_service_line
        { service_code := "S1", charge_amount := 100, allowed_amount := 100, quantity := 2 }
        { payment_event_id := "E" }
        { payment_event_id := "CTX",
          over_under := { payment_center_id := 1, previous_balance := 300 },
          settings := [("adjustment_factor", 9/10)] }).calculated_amount * (1/2))) = 90
    rw [hsc]
    have hmin : min (max (300 : ℚ) 0) ((180 : ℚ) * (1/2)) = 90 := by
      rw [max_eq_left (by norm_num : (0:ℚ) ≤ 300)]
      rw [min_eq_right (by norm_num : (180 : ℚ) * (1/2) ≤ 300)]
      norm_num
    rw [hmin]
    unfold round2
    rw [round_eq]
    norm_num [Int.floor_eq_iff]

/-- C1 witness: at allowed 10, quantity 1, no adjustment factor and previous
balance -7, the calculated amount is nonnegative, the balance negative, and
the offset is 0. -/
theorem compute_service_line_spec_witness :
    0 ≤ (compute_service_line
        { service_code := "S", charge_amount := 0, allowed_amount := 10, quantity := 1 }
        { payment_event_id := "E" }
        { payment_event_id := "C",
          over_under := { payment_center_id := 1, previous_balance := -7 } }).calculated_amount ∧
    (-7 : ℚ) < 0 ∧
    (compute_service_line
        { service_code := "S", charge_amount := 0, allowed_amount := 10, quantity := 1 }
        { payment_event_id := "E" }
        { payment_event_id := "C",
          over_under := { payment_center_id := 1, previous_balance := -7 } }).offsets_applied = 0 := by
  have h := compute_service_line_spec
    { service_code := "S", charge_amount := 0, allowed_amount := 10, quantity := 1 }
    { payment_event_id := "E" }
    { payment_event_id := "C",
      over_under := { payment_center_id := 1, previous_balance := -7 } }
  have h0 : (compute_service_line
      { service_code := "S", charge_amount := 0, allowed_amount := 10, quantity := 1 }
      { payment_event_id := "E" }
      { payment_event_id := "C",
        over_under := { payment_center_id := 1, previous_balance := -7 } }).calculated_amount = 10 := by
    show round2 ((10 : ℚ) * 1 * ((lookupA ([] : List (String × ℚ)) "adjustment_factor").getD 1)) = 10
    simp only [lookupA, Option.getD]
    unfold round2
    rw [round_eq]
    norm_num [Int.floor_eq_iff]
  exact ⟨by rw [h0]; norm_num, by norm_num, h.2.2.1 (by rw [h0]; norm_num) (by norm_num)⟩

lemma rollupLines_calc_sum (cs : List Claim) :
    ((cs.flatMap rollupLines).map (·.calculated_amount)).sum =
      (cs.flatMap fun c => c.service_lines.map (·.allowed_amount)).sum := by
  induction cs with
  | nil => rfl
  | cons c rest ih =>
      simp only [List.flatMap_cons, List.map_append, List.sum_append, ih]
      simp only [rollupLines, List.map_map]
      rfl

/-- C5 counterexample: a purely-voided parent group whose void claim carries a
service line with allowed amount 100 rolls up to a claim payment of total 100,
not a zero-effect payment. -/
theorem rollup_to_claim_not_zero_effect :
    voidOnlyGroup.paid_claims = [] ∧
    voidOnlyGroup.adjust_claims = [] ∧
    (rollup_to_claim voidOnlyGroup).total_amount = 100 ∧
    (100 : ℚ) ≠ 0 := by
  refine ⟨rfl, rfl, ?_, by norm_num⟩
  show round2 (((100 : ℚ) + 0)) = 100
  unfold round2
  rw [round_eq]
  norm_num [Int.floor_eq_iff]

/-- C5 (amended): `rollup_to_claim` takes `paid_claims ++ adjust_claims` as
candidates, falls back to `void_claims` when both are empty (so a
purely-voided group still yields a claim-payment record, totaling the void
claims' allowed amounts), synthesizes per service line a payment with
`calculated_amount = allowed_amount` and zero offsets, and totals the allowed
amounts rounded to 2 decimals. -/
theorem rollup_to_claim_spec (pg : ParentGroup) :
    (pg.paid_claims ++ pg.adjust_claims ≠ [] →
      (rollup_to_claim pg).service_line_payments =
        (pg.paid_claims ++ pg.adjust_claims).flatMap rollupLines ∧
      (rollup_to_claim pg).total_amount =
        round2 (((pg.paid_claims ++ pg.adjust_claims).flatMap fun c =>
          c.service_lines.map (·.allowed_amount)).sum)) ∧
    (pg.paid_claims ++ pg.adjust_claims = [] →
      (rollup_to_claim pg).service_line_payments = pg.void_claims.flatMap rollupLines ∧
      (rollup_to_claim pg).total_amount =
        round2 ((pg.void_claims.flatMap fun c =>
          c.service_lines.map (·.allowed_amount)).sum)) ∧
    (∀ p ∈ (rollup_to_claim pg).service_line_payments,
      p.calculated_amount = p.service_line.allowed_amount ∧ p.offsets_applied = 0) ∧
    (rollup_to_claim pg).total_amount =
      round2 (((rollup_to_claim pg).service_line_payments.map (·.calculated_amount)).sum) := by
  unfold rollup_to_claim
  by_cases h : pg.paid_claims ++ pg.adjust_claims = []
  · rw [if_pos h]
    refine ⟨fun hne => absurd h hne, fun _ => ⟨rfl, rfl⟩, ?_, ?_⟩
    · intro p hp
      simp only [List.mem_flatMap, rollupLines, List.mem_map] at hp
      obtain ⟨c, _, sl, _, rfl⟩ := hp
      exact ⟨rfl, rfl⟩
    · simp only [rollupLines_calc_sum]
  · rw [if_neg h]
    refine ⟨fun _ => ⟨rfl, rfl⟩, fun he => absurd he h, ?_, ?_⟩
    · intro p hp
      simp only [List.mem_flatMap, rollupLines, List.mem_map] at hp
      obtain ⟨c, _, sl, _, rfl⟩ := hp
      exact ⟨rfl, rfl⟩
    · simp only [rollupLines_calc_sum]

/-- C5 witness: applying the rollup theorem to a group with one paid claim
holding a single 100-amount service line yields a total of 100. -/
theorem rollup_to_claim_spec_witness :
    (rollup_to_claim paidOnlyGroup).total_amount =
      round2 (((paidOnlyGroup.paid_claims ++ paidOnlyGroup.adjust_claims).flatMap fun c =>
        c.service_lines.map (·.allowed_amount)).sum) := by
  have h := (rollup_to_claim_spec paidOnlyGroup).1 (by simp [paidOnlyGroup])
  exact h.2

/-- C6 counterexample: with a 0.005 total and zero interest, the mutated
total is `round(0.005 + 0, 2) = 0.01`, not the claimed increment
`total_amount + interest = 0.005`. -/
theorem apply_interest_not_plain_increment :
    (apply_interest { claim_id := "C", total_amount := 1/200 }
      { rate := 0, grace_period_days := 0 } 0).interest_amount = 0 ∧
    (apply_interest { claim_id := "C", total_amount := 1/200 }
      { rate := 0, grace_period_days := 0 } 0).total_amount = 1/100 ∧
    (apply_interest { claim_id := "C", total_amount := 1/200 }
      { rate := 0, grace_period_days := 0 } 0).total_amount ≠
      (1/200 : ℚ) +
        (apply_interest { claim_id := "C", total_amount := 1/200 }
          { rate := 0, grace_period_days := 0 } 0).interest_amount := by
  have hzero : round2 ((1/200 : ℚ) * 0 * ((max ((0:ℤ) - 0) 0 : ℤ) : ℚ) / 365) = 0 := by
    norm_num [round2]
  have htot : round2 ((1/200 : ℚ) + 0) = 1/100 := by
    unfold round2
    rw [round_eq]
    norm_num [Int.floor_eq_iff]
  unfold apply_interest
  simp only [hzero, htot]
  norm_num

/-- C6 (amended): `apply_interest` sets
`days_late = max (days_since_due - grace_period_days) 0`,
`interest = round2 (total * rate * days_late / 365)`, stores the interest and
sets the total to `round2 (total + interest)` (equal to `total + interest`
whenever the total is already a 2-decimal amount); the 1000/0.05/30-day-late
scenario yields 4.11 and 1004.11, and a second application accrues interest on
the incremented total, giving 1008.24. -/
theorem apply_interest_spec (cp : ClaimPayment) (rules : InterestRules)
    (days_since_due : ℤ) :
    (apply_interest cp rules days_since_due).interest_amount =
      round2 (cp.total_amount * rules.rate *
        ((max (days_since_due - rules.grace_period_days) 0 : ℤ) : ℚ) / 365) ∧
    (apply_interest cp rules days_since_due).total_amount =
      round2 (cp.total_amount + (apply_interest cp rules days_since_due).interest_amount) ∧
    (round2 cp.total_amount = cp.total_amount →
      (apply_interest cp rules days_since_due).total_amount =
        cp.total_amount + (apply_interest cp rules days_since_due).interest_amount) ∧
    (apply_interest cp rules days_since_due).claim_id = cp.claim_id ∧
    (apply_interest cp rules days_since_due).service_line_payments =
      cp.service_line_payments ∧
    (apply_interest { claim_id := "C", total_amount := 1000 }
      { rate := 1/20, grace_period_days := 30 } 60).interest_amount = 411/100 ∧
    (apply_interest { claim_id := "C", total_amount := 1000 }
      { rate := 1/20, grace_period_days := 30 } 60).total_amount = 100411/100 ∧
    (apply_interest
      (apply_interest { claim_id := "C", total_amount := 1000 }
        { rate := 1/20, grace_period_days := 30 } 60)
      { rate := 1/20, grace_period_days := 30 } 60).total_amount = 100824/100 := by
  have hint : round2 ((1000 : ℚ) * (1/20) * ((max ((60:ℤ) - 30) 0 : ℤ) : ℚ) / 365) = 411/100 := by
    have hmax : (max ((60:ℤ) - 30) 0) = 30 := by decide
    rw [hmax]
    unfold round2
    rw [round_eq]
    norm_num [Int.floor_eq_iff]
  have htot : round2 ((1000 : ℚ) + 411/100) = 100411/100 := by
    unfold round2
    rw [round_eq]
    norm_num [Int.floor_eq_iff]
  have hsc1 : apply_interest { claim_id := "C", total_amount := 1000 }
      { rate := 1/20, grace_period_days := 30 } 60 =
      { claim_id := "C", total_amount := 100411/100, interest_amount := 411/100 } := by
    unfold apply_interest
    simp only [hint, htot]
  have hint2 : round2 ((100411/100 : ℚ) * (1/20) * ((max ((60:ℤ) - 30) 0 : ℤ) : ℚ) / 365) =
      413/100 := by
    have hmax : (max ((60:ℤ) - 30) 0) = 30 := by decide
    rw [hmax]
    unfold round2
    rw [round_eq]
    norm_num [Int.floor_eq_iff]
  have htot2 : round2 ((100411/100 : ℚ) + 413/100) = 100824/100 := by
    unfold round2
    rw [round_eq]
    norm_num [Int.floor_eq_iff]
  refine ⟨rfl, rfl, ?_, rfl, rfl, ?_, ?_, ?_⟩
  · intro hfix
    have hi : round2 ((apply_interest cp rules days_since_due).interest_amount) =
        (apply_interest cp rules days_since_due).interest_amount := round2_round2 _
    exact round2_fix_add hfix hi
  · rw [hsc1]
  · rw [hsc1]
  · rw [hsc1]
    unfold apply_interest
    simp only [hint2, htot2]

/-- C6 witness: the scenario payment has a 2-decimal total, so the theorem's
increment clause applies and the mutated total equals total plus interest. -/
theorem apply_interest_spec_witness :
    round2 ((1000 : ℚ)) = 1000 ∧
    (apply_interest { claim_id := "C", total_amount := 1000 }
      { rate := 1/20, grace_period_days := 30 } 60).total_amount =
      (1000 : ℚ) +
        (apply_interest { claim_id := "C", total_amount := 1000 }
          { rate := 1/20, grace_period_days := 30 } 60).interest_amount := by
  have h1000 : round2 ((1000 : ℚ)) = 1000 := by
    unfold round2
    rw [round_eq]
    norm_num [Int.floor_eq_iff]
  exact ⟨h1000,
    (apply_interest_spec { claim_id := "C", total_amount := 1000 }
      { rate := 1/20, grace_period_days := 30 } 60).2.2.1 h1000⟩

lemma is_critical_iff {f : Finding}
    (hw : f.severity = "INFO" ∨ f.severity = "WARNING" ∨ f.severity = "CRITICAL") :
    is_critical f = true ↔ f.severity = "CRITICAL" := by
  unfold is_critical
  rcases hw with h | h | h <;> rw [h] <;> decide

/-- C4: `aggregate_findings` concatenates previously captured findings with
the extra findings, blocks exactly when some combined finding is CRITICAL,
and `raise_if_blocking` errors with the concatenated critical messages and
counts exactly when the report is blocked. -/
theorem aggregate_findings_spec (captured extra : List Finding) (mode : String)
    (hw : ∀ f ∈ captured ++ extra,
      f.severity = "INFO" ∨ f.severity = "WARNING" ∨ f.severity = "CRITICAL") :
    (aggregate_findings captured extra).findings = captured ++ extra ∧
    ((aggregate_findings captured extra).blocked = true ↔
      ∃ f ∈ captured ++ extra, f.severity = "CRITICAL") ∧
    ((aggregate_findings captured extra).blocked = true →
      raise_if_blocking (aggregate_findings captured extra) mode =
        Except.error (mode ++ " run blocked: " ++ String.intercalate "; "
          (((captured ++ extra).filter is_critical).map fun f =>
            f.message ++ " (" ++ toString f.count ++ ")"))) ∧
    ((aggregate_findings captured extra).blocked = false →
      raise_if_blocking (aggregate_findings captured extra) mode = Except.ok ()) := by
  have hblocked : (aggregate_findings captured extra).blocked =
      (captured ++ extra).any is_critical := rfl
  refine ⟨rfl, ?_, ?_, ?_⟩
  · rw [hblocked, List.any_eq_true]
    constructor
    · rintro ⟨f, hf, hc⟩
      exact ⟨f, hf, (is_critical_iff (hw f hf)).1 hc⟩
    · rintro ⟨f, hf, hc⟩
      exact ⟨f, hf, (is_critical_iff (hw f hf)).2 hc⟩
  · intro hb
    unfold raise_if_blocking
    rw [hb]
    rfl
  · intro hb
    unfold raise_if_blocking
    rw [hb]
    rfl

/-- C4 witness: a validator that captured one CRITICAL finding blocks on
`aggregate_findings []`, and `raise_if_blocking` raises with the finding
message and count. -/
theorem aggregate_findings_spec_witness :
    (aggregate_findings [{ severity := "CRITICAL", message := "dup", count := 2 }] []).blocked
      = true ∧
    raise_if_blocking
      (aggregate_findings [{ severity := "CRITICAL", message := "dup", count := 2 }] [])
      "final" = Except.error "final run blocked: dup (2)" := by
  have h := aggregate_findings_spec
    [{ severity := "CRITICAL", message := "dup", count := 2 }] [] "final"
    (by
      intro f hf
      simp at hf
      rw [hf]
      right
      right
      rfl)
  have hb : (aggregate_findings
      [{ severity := "CRITICAL", message := "dup", count := 2 }] []).blocked = true := by
    refine h.2.1.mpr ⟨{ severity := "CRITICAL", message := "dup", count := 2 }, by simp, rfl⟩
  refine ⟨hb, ?_⟩
  rw [h.2.2.1 hb]
  exact congrArg Except.error (by decide)

lemma orElseStr_eq_ite (o : Option String) (b : String) :
    orElseStr o b = if nonEmptyOpt o then o.getD "" else b := by
  cases o with
  | none => simp [orElseStr, nonEmptyOpt]
  | some s =>
      by_cases hs : s = "" <;> simp [orElseStr, nonEmptyOpt, hs]

/-- C8: the composite key is the type tag, a colon, and the first non-empty
identifier in priority order (UNKNOWN when all candidates are empty or
absent); the identifier segment is never empty, and every key returned by
`derive_unique_keys` arises from some claim this way. -/
theorem derive_unique_keys_spec (claims : List Claim) (claim : Claim)
    (pc_type : PaymentCenterType) :
    deriveKey claim pc_type = pc_type.value ++ ":" ++ identifierSpec claim pc_type ∧
    identifierSpec claim pc_type ≠ "" ∧
    (∀ k ∈ derive_unique_keys claims pc_type, ∃ c ∈ claims, k = deriveKey c pc_type) ∧
    (∀ c ∈ claims, deriveKey c pc_type ∈ derive_unique_keys claims pc_type) := by
  refine ⟨?_, ?_, ?_, ?_⟩
  · cases pc_type <;>
      simp [deriveKey, identifierSpec, orElseStr_eq_ite]
  · cases pc_type with
    | PROVIDER =>
        show (if nonEmptyOpt claim.tin then claim.tin.getD ""
          else if nonEmptyOpt claim.npi then claim.npi.getD ""
          else if nonEmptyOpt claim.member_id then claim.member_id.getD ""
          else "UNKNOWN") ≠ ""
        split_ifs with h1 h2 h3
        · simpa [nonEmptyOpt] using h1
        · simpa [nonEmptyOpt] using h2
        · simpa [nonEmptyOpt] using h3
        · decide
    | DMR =>
        show (if nonEmptyOpt claim.member_id then claim.member_id.getD ""
          else if nonEmptyOpt claim.benefit_plan_id then claim.benefit_plan_id.getD ""
          else "UNKNOWN") ≠ ""
        split_ifs with h1 h2
        · simpa [nonEmptyOpt] using h1
        · simpa [nonEmptyOpt] using h2
        · decide
  · intro k hk
    simp only [derive_unique_keys, List.mem_toFinset, List.mem_map] at hk
    obtain ⟨c, hc, rfl⟩ := hk
    exact ⟨c, hc, rfl⟩
  · intro c hc
    simp only [derive_unique_keys, List.mem_toFinset, List.mem_map]
    exact ⟨c, hc, rfl⟩

/-- C8 witness: a provider claim with no identifying fields derives the key
PROVIDER:UNKNOWN, whose identifier segment is UNKNOWN, and that key is a
member of the derived key set. -/
theorem derive_unique_keys_spec_witness :
    deriveKey
        { claim_id := "X", parent_claim_core_id := "P",
          claim_type := ClaimType.MEDICAL, status := ClaimStatus.OPEN,
          frequency_code := FrequencyCode.ORIGINAL }
        PaymentCenterType.PROVIDER = "PROVIDER:UNKNOWN" ∧
    identifierSpec
        { claim_id := "X", parent_claim_core_id := "P",
          claim_type := ClaimType.MEDICAL, status := ClaimStatus.OPEN,
          frequency_code := FrequencyCode.ORIGINAL }
        PaymentCenterType.PROVIDER ≠ "" ∧
    "PROVIDER:UNKNOWN" ∈ derive_unique_keys
        [{ claim_id := "X", parent_claim_core_id := "P",
           claim_type := ClaimType.MEDICAL, status := ClaimStatus.OPEN,
           frequency_code := FrequencyCode.ORIGINAL }]
        PaymentCenterType.PROVIDER := by
  have h := derive_unique_keys_spec
    [{ claim_id := "X", parent_claim_core_id := "P",
       claim_type := ClaimType.MEDICAL, status := ClaimStatus.OPEN,
       frequency_code := FrequencyCode.ORIGINAL }]
    { claim_id := "X", parent_claim_core_id := "P",
      claim_type := ClaimType.MEDICAL, status := ClaimStatus.OPEN,
      frequency_code := FrequencyCode.ORIGINAL }
    PaymentCenterType.PROVIDER
  refine ⟨?_, h.2.1, ?_⟩
  · rw [h.1]
    decide
  · have hm := h.2.2.2 _ (List.mem_cons_self _ _)
    have hk : deriveKey
        { claim_id := "X", parent_claim_core_id := "P",
          claim_type := ClaimType.MEDICAL, status := ClaimStatus.OPEN,
          frequency_code := FrequencyCode.ORIGINAL }
        PaymentCenterType.PROVIDER = "PROVIDER:UNKNOWN" := by
      rw [h.1]
      decide
    rwa [hk] at hm

lemma distinctNew_card (ids : List String) :
    ∀ seen, distinctNew ids seen = ((ids.toFinset \ seen.toFinset).card) := by
  induction ids with
  | nil => intro seen; simp [distinctNew]
  | cons id rest ih =>
      intro seen
      by_cases h : id ∈ seen
      · simp only [distinctNew, if_pos h]
        rw [ih seen]
        congr 1
        rw [List.toFinset_cons, Finset.insert_sdiff_of_mem _ (by simp [h])]
      · simp only [distinctNew, if_neg h]
        rw [ih (id :: seen)]
        rw [List.toFinset_cons, List.toFinset_cons, Finset.sdiff_insert,
          Finset.insert_sdiff_of_not_mem _ (by simp [h])]
        by_cases hid : id ∈ rest.toFinset \ seen.toFinset
        · rw [Finset.insert_eq_self.mpr hid]
          have := Finset.card_erase_add_one hid
          omega
        · rw [Finset.card_insert_of_not_mem hid, Finset.erase_eq_of_not_mem hid]
          omega

lemma dupScan_length (ids : List String) :
    ∀ seen, (dupScan ids seen).length + distinctNew ids seen = ids.length := by
  induction ids with
  | nil => intro seen; simp [dupScan, distinctNew]
  | cons id rest ih =>
      intro seen
      by_cases h : id ∈ seen
      · simp only [dupScan, distinctNew, if_pos h, List.length_cons]
        have := ih seen
        omega
      · simp only [dupScan, distinctNew, if_neg h, List.length_cons]
        have := ih (id :: seen)
        omega

lemma dupScan_eq_nil_iff (ids : List String) :
    ∀ seen, dupScan ids seen = [] ↔ (ids.Nodup ∧ ∀ x ∈ ids, x ∉ seen) := by
  induction ids with
  | nil => intro seen; simp [dupScan]
  | cons id rest ih =>
      intro seen
      by_cases h : id ∈ seen
      · simp only [dupScan, if_pos h]
        refine iff_of_false (List.cons_ne_nil _ _) ?_
        rintro ⟨-, hall⟩
        exact hall id (List.mem_cons_self _ _) h
      · simp only [dupScan, if_neg h]
        rw [ih (id :: seen)]
        constructor
        · rintro ⟨hnd, hall⟩
          refine ⟨List.nodup_cons.mpr ⟨fun hmem => ?_, hnd⟩, ?_⟩
          · exact (hall id hmem) (List.mem_cons_self _ _)
          · intro x hx
            rcases List.mem_cons.mp hx with rfl | hx2
            · exact h
            · intro hxseen
              exact (hall x hx2) (List.mem_cons_of_mem _ hxseen)
        · rintro ⟨hnd, hall⟩
          have hnd' := List.nodup_cons.mp hnd
          refine ⟨hnd'.2, ?_⟩
          intro x hx hxin
          rcases List.mem_cons.mp hxin with rfl | hxseen
          · exact hnd'.1 hx
          · exact (hall x (List.mem_cons_of_mem _ hx)) hxseen

lemma dupScan_mem {x : String} (ids : List String) :
    ∀ seen, x ∈ dupScan ids seen → (x ∈ seen ∧ x ∈ ids) ∨ 2 ≤ ids.count x := by
  induction ids with
  | nil => intro seen hmem; simp [dupScan] at hmem
  | cons id rest ih =>
      intro seen hx
      by_cases h : id ∈ seen
      · simp only [dupScan, if_pos h] at hx
        rcases List.mem_cons.mp hx with rfl | hx2
        · exact Or.inl ⟨h, List.mem_cons_self _ _⟩
        · rcases ih seen hx2 with ⟨hs, hm⟩ | hc
          · exact Or.inl ⟨hs, List.mem_cons_of_mem _ hm⟩
          · right
            have hle : rest.count x ≤ (id :: rest).count x := by
              rw [List.count_cons]
              split <;> omega
            omega
      · simp only [dupScan, if_neg h] at hx
        rcases ih (id :: seen) hx with ⟨hs, hm⟩ | hc
        · rcases List.mem_cons.mp hs with rfl | hseen
          · right
            have h1 : 0 < rest.count x := List.count_pos_iff.mpr hm
            have h2 : (x :: rest).count x = rest.count x + 1 := by
              rw [List.count_cons]
              simp
            omega
          · exact Or.inl ⟨hseen, List.mem_cons_of_mem _ hm⟩
        · right
          have hle : rest.count x ≤ (id :: rest).count x := by
            rw [List.count_cons]
            split <;> omega
          omega

/-- C3: `validate_duplicates` is INFO with count 0 when no claim id repeats,
CRITICAL otherwise; the count equals the number of occurrences beyond the
first of each id (length minus number of distinct ids), and sample_ids holds
at most 5 ids, all of which occur at least twice. -/
theorem validate_duplicates_spec (claims : List Claim) :
    ((claims.map Claim.claim_id).Nodup →
      (validate_duplicates claims).severity = "INFO" ∧
      (validate_duplicates claims).count = 0) ∧
    (¬ (claims.map Claim.claim_id).Nodup →
      (validate_duplicates claims).severity = "CRITICAL") ∧
    (validate_duplicates claims).count + (claims.map Claim.claim_id).toFinset.card
      = (claims.map Claim.claim_id).length ∧
    (validate_duplicates claims).sample_ids.length ≤ 5 ∧
    (∀ x ∈ (validate_duplicates claims).sample_ids,
      2 ≤ (claims.map Claim.claim_id).count x) := by
  refine ⟨?_, ?_, ?_, ?_, ?_⟩
  · intro hnd
    have hnil : dupScan (claims.map Claim.claim_id) [] = [] :=
      (dupScan_eq_nil_iff (claims.map Claim.claim_id) []).mpr ⟨hnd, by simp⟩
    constructor
    · show (if dupScan (claims.map Claim.claim_id) [] = [] then "INFO" else "CRITICAL")
        = "INFO"
      rw [if_pos hnil]
    · show (dupScan (claims.map Claim.claim_id) []).length = 0
      rw [hnil]
      rfl
  · intro hnd
    have hne : dupScan (claims.map Claim.claim_id) [] ≠ [] := fun hnil =>
      hnd ((dupScan_eq_nil_iff (claims.map Claim.claim_id) []).mp hnil).1
    show (if dupScan (claims.map Claim.claim_id) [] = [] then "INFO" else "CRITICAL")
      = "CRITICAL"
    rw [if_neg hne]
  · show (dupScan (claims.map Claim.claim_id) []).length +
      (claims.map Claim.claim_id).toFinset.card = (claims.map Claim.claim_id).length
    have h2 : distinctNew (claims.map Claim.claim_id) [] =
        (claims.map Claim.claim_id).toFinset.card := by
      rw [distinctNew_card]
      simp
    rw [← h2]
    exact dupScan_length (claims.map Claim.claim_id) []
  · show ((dupScan (claims.map Claim.claim_id) []).take 5).length ≤ 5
    simp [List.length_take]
  · intro x hx
    have hx2 : x ∈ dupScan (claims.map Claim.claim_id) [] :=
      List.take_subset _ _ hx
    rcases dupScan_mem (claims.map Claim.claim_id) [] hx2 with ⟨hs, -⟩ | hc
    · simp at hs
    · exact hc

/-- C3 witness: on three claims with ids A, A, B the validator reports
CRITICAL with count 1 and the duplicated id occurs twice. -/
theorem validate_duplicates_spec_witness :
    (validate_duplicates dupClaims).severity = "CRITICAL" ∧
    (validate_duplicates dupClaims).count = 1 := by
  have h := validate_duplicates_spec dupClaims
  have hsev := h.2.1 (by decide)
  have hcount := h.2.2.1
  have hcard : ((dupClaims.map Claim.claim_id).toFinset.card) = 2 := by decide
  have hlen : (dupClaims.map Claim.claim_id).length = 3 := by decide
  refine ⟨hsev, ?_⟩
  omega

/-- C9: a claim collection whose only parent lineage consists of one
VOID-frequency claim makes `to_payment_center_claims` hit the out-of-range
index on `adjust_claims[0]` — the transformation raises IndexError. -/
theorem to_payment_center_claims_void_only_raises :
    to_payment_center_claims [voidClaimV] [] PaymentCenterType.PROVIDER
      { payment_center_id := 1, previous_balance := 0 } =
      Except.error "IndexError: list index out of range" := rfl


lemma lookupA_append_some {α : Type} {l : List (String × α)} {k : String} {v : α}
    (e : List (String × α)) (h : lookupA l k = some v) : lookupA (l ++ e) k = some v := by
  induction l with
  | nil => simp [lookupA] at h
  | cons p rest ih =>
      obtain ⟨k0, v0⟩ := p
      by_cases hk : k0 = k
      · simp only [lookupA, if_pos hk] at h ⊢
        exact h
      · simp only [lookupA, if_neg hk] at h ⊢
        exact ih h

lemma lookupA_append_self {α : Type} {l : List (String × α)} {k : String} (v : α)
    (h : lookupA l k = none) : lookupA (l ++ [(k, v)]) k = some v := by
  induction l with
  | nil => simp [lookupA]
  | cons p rest ih =>
      obtain ⟨k0, v0⟩ := p
      by_cases hk : k0 = k
      · simp [lookupA, hk] at h
      · simp only [lookupA, if_neg hk] at h ⊢
        exact ih h

lemma lookupA_none_not_mem {α : Type} {l : List (String × α)} {k : String}
    (h : lookupA l k = none) : k ∉ l.map Prod.fst := by
  induction l with
  | nil => simp
  | cons p rest ih =>
      obtain ⟨k0, v0⟩ := p
      by_cases hk : k0 = k
      · simp [lookupA, hk] at h
      · simp only [lookupA, if_neg hk] at h
        simp only [List.map_cons, List.mem_cons]
        rintro (rfl | hmem)
        · exact hk rfl
        · exact ih h hmem

lemma createStep_none {s : ManagerState} {sum : PaymentCenterSummary}
    {created : List (String × ℕ)} {key : String} (hl : lookupA s.cache key = none) :
    createStep (s, sum, created) key =
      ({ cache := s.cache ++ [(key, s.next_id)], next_id := s.next_id + 1 },
       { sum with
         created_ws_ids := sum.created_ws_ids ++ [s.next_id]
         created_prod_ids := sum.created_prod_ids ++ [s.next_id] },
       created ++ [(key, s.next_id)]) := by
  simp [createStep, hl]

lemma createStep_some {s : ManagerState} {sum : PaymentCenterSummary}
    {created : List (String × ℕ)} {key : String} {v0 : ℕ}
    (hl : lookupA s.cache key = some v0) :
    createStep (s, sum, created) key = (s, sum, created ++ [(key, v0)]) := by
  simp [createStep, hl]

lemma createFold_lookup_some (keys : List String) :
    ∀ (s : ManagerState) (sum : PaymentCenterSummary) (created : List (String × ℕ))
      (k : String) (v : ℕ), lookupA s.cache k = some v →
      lookupA (keys.foldl createStep (s, sum, created)).1.cache k = some v := by
  induction keys with
  | nil => intro s sum created k v h; exact h
  | cons key rest ih =>
      intro s sum created k v h
      rw [List.foldl_cons]
      rcases hl : lookupA s.cache key with _ | v0
      · rw [createStep_none hl]
        exact ih _ _ _ _ _ (lookupA_append_some _ h)
      · rw [createStep_some hl]
        exact ih _ _ _ _ _ h

lemma createFold_mem_isSome (keys : List String) :
    ∀ (s : ManagerState) (sum : PaymentCenterSummary) (created : List (String × ℕ)),
      ∀ k ∈ keys,
        (lookupA (keys.foldl createStep (s, sum, created)).1.cache k).isSome = true := by
  induction keys with
  | nil => intro s sum created k hk; simp at hk
  | cons key rest ih =>
      intro s sum created k hk
      rw [List.foldl_cons]
      rcases List.mem_cons.mp hk with rfl | hk2
      · rcases hl : lookupA s.cache k with _ | v0
        · rw [createStep_none hl]
          have hsome := createFold_lookup_some rest
            { cache := s.cache ++ [(k, s.next_id)], next_id := s.next_id + 1 }
            { sum with
              created_ws_ids := sum.created_ws_ids ++ [s.next_id]
              created_prod_ids := sum.created_prod_ids ++ [s.next_id] }
            (created ++ [(k, s.next_id)]) k s.next_id
            (lookupA_append_self s.next_id hl)
          rw [hsome]
          rfl
        · rw [createStep_some hl]
          have hsome := createFold_lookup_some rest s sum (created ++ [(k, v0)]) k v0 hl
          rw [hsome]
          rfl
      · exact ih _ _ _ k hk2

lemma createFold_created (keys : List String) :
    ∀ (s : ManagerState) (sum : PaymentCenterSummary) (created : List (String × ℕ)),
      (keys.foldl createStep (s, sum, created)).2.2 =
        created ++ keys.map (fun k =>
          (k, (lookupA (keys.foldl createStep (s, sum, created)).1.cache k).getD 0)) := by
  induction keys with
  | nil => intro s sum created; simp
  | cons key rest ih =>
      intro s sum created
      rcases hl : lookupA s.cache key with _ | v0
      · rw [List.foldl_cons, createStep_none hl, ih]
        have hfin := createFold_lookup_some rest
          { cache := s.cache ++ [(key, s.next_id)], next_id := s.next_id + 1 }
          { sum with
            created_ws_ids := sum.created_ws_ids ++ [s.next_id]
            created_prod_ids := sum.created_prod_ids ++ [s.next_id] }
          (created ++ [(key, s.next_id)]) key s.next_id
          (lookupA_append_self s.next_id hl)
        rw [List.map_cons, hfin]
        simp
      · rw [List.foldl_cons, createStep_some hl, ih]
        have hfin := createFold_lookup_some rest s sum (created ++ [(key, v0)]) key v0 hl
        rw [List.map_cons, hfin]
        simp

lemma createFold_all_present (keys : List String) :
    ∀ (s : ManagerState) (sum : PaymentCenterSummary) (created : List (String × ℕ)),
      (∀ k ∈ keys, (lookupA s.cache k).isSome = true) →
      keys.foldl createStep (s, sum, created) =
        (s, sum, created ++ keys.map fun k => (k, (lookupA s.cache k).getD 0)) := by
  induction keys with
  | nil => intro s sum created _; simp
  | cons key rest ih =>
      intro s sum created hall
      rw [List.foldl_cons]
      have hk := hall key (List.mem_cons_self _ _)
      rcases hl : lookupA s.cache key with _ | v0
      · rw [hl] at hk
        simp at hk
      · rw [createStep_some hl, ih _ _ _ (fun k hk2 => hall k (List.mem_cons_of_mem _ hk2))]
        simp [hl]

lemma createFold_missing_keys (keys : List String) :
    ∀ (s : ManagerState) (sum : PaymentCenterSummary) (created : List (String × ℕ)),
      (keys.foldl createStep (s, sum, created)).2.1.missing_keys = sum.missing_keys := by
  induction keys with
  | nil => intro s sum created; rfl
  | cons key rest ih =>
      intro s sum created
      rw [List.foldl_cons]
      rcases hl : lookupA s.cache key with _ | v0
      · rw [createStep_none hl, ih]
      · rw [createStep_some hl, ih]

lemma range_concat_step_one (a n : ℕ) : List.range' a (n + 1) = List.range' a n ++ [a + n] := by
  have h : List.range' a (n + 1) 1 = List.range' a n 1 ++ [a + 1 * n] := List.range'_concat a n
  simpa using h

lemma createFold_wf (keys : List String) :
    ∀ (s : ManagerState) (sum : PaymentCenterSummary) (created : List (String × ℕ)),
      WFManager s → WFManager (keys.foldl createStep (s, sum, created)).1 := by
  induction keys with
  | nil => intro s sum created h; exact h
  | cons key rest ih =>
      intro s sum created hwf
      rw [List.foldl_cons]
      rcases hl : lookupA s.cache key with _ | v0
      · rw [createStep_none hl]
        refine ih _ _ _ ⟨?_, ?_, ?_⟩
        · simp only [List.map_append, List.length_append, List.map_cons, List.map_nil,
            List.length_cons, List.length_nil]
          rw [hwf.1, hwf.2.1]
          have h := range_concat_step_one 1 s.cache.length
          rw [Nat.add_comm 1 s.cache.length] at h
          simpa using h.symm
        · simp [hwf.2.1]
        · simp only [List.map_append, List.map_cons, List.map_nil]
          have hnotmem := lookupA_none_not_mem hl
          simp [List.nodup_append, hwf.2.2, hnotmem]
      · rw [createStep_some hl]
        exact ih _ _ _ hwf

/-- C7: the manager cache starts well-formed (ids 1..n in encounter order,
one id per key), `create_missing_in_prod` preserves well-formedness, never
reassigns an existing binding, caches every missing key, and a second call
with the same summary leaves the state unchanged and returns the same
key-to-id mapping. -/
theorem create_missing_in_prod_spec (s : ManagerState) (summary : PaymentCenterSummary) :
    WFManager ManagerState.init ∧
    (WFManager s → WFManager (create_missing_in_prod s summary).1) ∧
    (∀ k v, lookupA s.cache k = some v →
      lookupA (create_missing_in_prod s summary).1.cache k = some v) ∧
    (∀ k ∈ summary.missing_keys,
      (lookupA (create_missing_in_prod s summary).1.cache k).isSome = true) ∧
    (create_missing_in_prod (create_missing_in_prod s summary).1
      (create_missing_in_prod s summary).2.1).1 = (create_missing_in_prod s summary).1 ∧
    (create_missing_in_prod (create_missing_in_prod s summary).1
      (create_missing_in_prod s summary).2.1).2.2 =
      (create_missing_in_prod s summary).2.2 := by
  have hinit : WFManager ManagerState.init := ⟨rfl, rfl, List.nodup_nil⟩
  have hpresent : ∀ k ∈ summary.missing_keys,
      (lookupA (create_missing_in_prod s summary).1.cache k).isSome = true :=
    fun k hk => createFold_mem_isSome summary.missing_keys s summary [] k hk
  have hmk : (create_missing_in_prod s summary).2.1.missing_keys = summary.missing_keys :=
    createFold_missing_keys summary.missing_keys s summary []
  have hsecond := createFold_all_present
    (create_missing_in_prod s summary).2.1.missing_keys
    (create_missing_in_prod s summary).1 (create_missing_in_prod s summary).2.1 []
    (by
      rw [hmk]
      exact hpresent)
  have hunfold : create_missing_in_prod s summary =
      summary.missing_keys.foldl createStep (s, summary, []) := rfl
  refine ⟨hinit, fun hwf => createFold_wf summary.missing_keys s summary [] hwf,
    fun k v h => createFold_lookup_some summary.missing_keys s summary [] k v h,
    hpresent, ?_, ?_⟩
  · show ((create_missing_in_prod s summary).2.1.missing_keys.foldl createStep
      ((create_missing_in_prod s summary).1, (create_missing_in_prod s summary).2.1, [])).1
      = (create_missing_in_prod s summary).1
    rw [hsecond]
  · show ((create_missing_in_prod s summary).2.1.missing_keys.foldl createStep
      ((create_missing_in_prod s summary).1, (create_missing_in_prod s summary).2.1, [])).2.2
      = (create_missing_in_prod s summary).2.2
    rw [hsecond]
    have hcreated := createFold_created summary.missing_keys s summary []
    rw [hmk, hunfold]
    exact hcreated.symm

/-- C7 witness: from a fresh manager, creating two missing keys yields a
well-formed cache containing both keys. -/
theorem create_missing_in_prod_spec_witness :
    WFManager (create_missing_in_prod ManagerState.init pcSummAB).1 ∧
    (lookupA (create_missing_in_prod ManagerState.init pcSummAB).1.cache
      "PROVIDER:A").isSome = true := by
  have h := create_missing_in_prod_spec ManagerState.init pcSummAB
  exact ⟨h.2.1 ⟨rfl, rfl, List.nodup_nil⟩,
    h.2.2.2.1 "PROVIDER:A" (by simp [pcSummAB])⟩

lemma add_claim_parent (g : ParentGroup) (c : Claim) :
    (ParentGroup.add_claim g c).parent_id = g.parent_id := by
  unfold ParentGroup.add_claim
  split_ifs <;> rfl

lemma add_claim_void (g : ParentGroup) (c : Claim) :
    (ParentGroup.add_claim g c).void_claims =
      g.void_claims ++ if goesVoid c then [c] else [] := by
  unfold ParentGroup.add_claim
  by_cases h1 : c.frequency_code = FrequencyCode.VOID
  · simp [h1, goesVoid]
  · by_cases h2 : c.status = ClaimStatus.ADJUSTED ∨ c.frequency_code = FrequencyCode.REPLACEMENT
        ∨ c.frequency_code = FrequencyCode.INTERIM_FINAL
    · simp [h1, h2, goesVoid]
    · simp [h1, h2, goesVoid]

lemma add_claim_adjust (g : ParentGroup) (c : Claim) :
    (ParentGroup.add_claim g c).adjust_claims =
      g.adjust_claims ++ if goesAdjust c then [c] else [] := by
  unfold ParentGroup.add_claim
  by_cases h1 : c.frequency_code = FrequencyCode.VOID
  · simp [h1, goesAdjust, goesVoid]
  · by_cases h2 : c.status = ClaimStatus.ADJUSTED ∨ c.frequency_code = FrequencyCode.REPLACEMENT
        ∨ c.frequency_code = FrequencyCode.INTERIM_FINAL
    · simp [h1, h2, goesAdjust, goesVoid]
    · simp [h1, h2, goesAdjust, goesVoid]

lemma add_claim_paid (g : ParentGroup) (c : Claim) :
    (ParentGroup.add_claim g c).paid_claims =
      g.paid_claims ++ if goesPaid c then [c] else [] := by
  unfold ParentGroup.add_claim
  by_cases h1 : c.frequency_code = FrequencyCode.VOID
  · simp [h1, goesPaid, goesAdjust, goesVoid]
  · by_cases h2 : c.status = ClaimStatus.ADJUSTED ∨ c.frequency_code = FrequencyCode.REPLACEMENT
        ∨ c.frequency_code = FrequencyCode.INTERIM_FINAL
    · simp [h1, h2, goesPaid, goesAdjust, goesVoid]
    · simp [h1, h2, goesPaid, goesAdjust, goesVoid]

lemma claim_bucket_partition (c : Claim) :
    (goesVoid c = true ∧ goesAdjust c = false ∧ goesPaid c = false) ∨
    (goesVoid c = false ∧ goesAdjust c = true ∧ goesPaid c = false) ∨
    (goesVoid c = false ∧ goesAdjust c = false ∧ goesPaid c = true) := by
  by_cases h1 : c.frequency_code = FrequencyCode.VOID
  · exact Or.inl (by simp [goesVoid, goesAdjust, goesPaid, h1])
  · by_cases h2 : c.status = ClaimStatus.ADJUSTED ∨ c.frequency_code = FrequencyCode.REPLACEMENT
        ∨ c.frequency_code = FrequencyCode.INTERIM_FINAL
    · exact Or.inr (Or.inl (by simp [goesVoid, goesAdjust, goesPaid, h1, h2]))
    · exact Or.inr (Or.inr (by simp [goesVoid, goesAdjust, goesPaid, h1, h2]))

lemma addFold_buckets (cs : List Claim) :
    ∀ g : ParentGroup,
      (cs.foldl ParentGroup.add_claim g).parent_id = g.parent_id ∧
      (cs.foldl ParentGroup.add_claim g).void_claims =
        g.void_claims ++ cs.filter goesVoid ∧
      (cs.foldl ParentGroup.add_claim g).adjust_claims =
        g.adjust_claims ++ cs.filter goesAdjust ∧
      (cs.foldl ParentGroup.add_claim g).paid_claims =
        g.paid_claims ++ cs.filter goesPaid := by
  induction cs with
  | nil => intro g; simp
  | cons c rest ih =>
      intro g
      rw [List.foldl_cons]
      obtain ⟨hp, hv, ha, hd⟩ := ih (ParentGroup.add_claim g c)
      refine ⟨?_, ?_, ?_, ?_⟩
      · rw [hp, add_claim_parent]
      · rw [hv, add_claim_void]
        by_cases h : goesVoid c <;> simp [h, List.filter_cons]
      · rw [ha, add_claim_adjust]
        by_cases h : goesAdjust c <;> simp [h, List.filter_cons]
      · rw [hd, add_claim_paid]
        by_cases h : goesPaid c <;> simp [h, List.filter_cons]

lemma buildGroup_none_nil (k : String) : buildGroup k none [] = none := rfl

lemma buildGroup_some (k : String) (g0 : ParentGroup) (cs : List Claim) :
    buildGroup k (some g0) cs = some (cs.foldl ParentGroup.add_claim g0) := by
  cases cs <;> rfl

lemma buildGroup_cons (k : String) (g0 : Option ParentGroup) (c : Claim) (cs : List Claim) :
    buildGroup k g0 (c :: cs) =
      some ((c :: cs).foldl ParentGroup.add_claim (g0.getD { parent_id := k })) := by
  cases g0 <;> rfl

lemma insertGrouped_lookup (st : List (String × ParentGroup)) (c : Claim) (k : String) :
    lookupA (insertGrouped st c) k =
      if k = c.parent_claim_core_id then
        some (ParentGroup.add_claim ((lookupA st k).getD { parent_id := k }) c)
      else lookupA st k := by
  induction st with
  | nil =>
      by_cases h : k = c.parent_claim_core_id
      · subst h
        simp [insertGrouped, lookupA]
      · simp only [insertGrouped, lookupA]
        rw [if_neg (fun he => h he.symm), if_neg h]
  | cons p rest ih =>
      obtain ⟨k0, g0⟩ := p
      by_cases hc : k0 = c.parent_claim_core_id
      · simp only [insertGrouped, if_pos hc]
        by_cases hk : k0 = k
        · subst hk
          simp only [lookupA, if_pos rfl]
          rw [if_pos hc]
          simp
        · simp only [lookupA, if_neg hk]
          by_cases hkc : k = c.parent_claim_core_id
          · rw [hkc] at hk
            rw [hc] at hk
            exact absurd rfl hk
          · rw [if_neg hkc]
      · simp only [insertGrouped, if_neg hc]
        by_cases hk : k0 = k
        · subst hk
          simp only [lookupA, if_pos rfl]
          have hkc : ¬ k0 = c.parent_claim_core_id := hc
          rw [if_neg hkc]
          simp [lookupA]
        · simp only [lookupA, if_neg hk]
          exact ih

lemma raw_lookup (claims : List Claim) :
    ∀ (st : List (String × ParentGroup)) (k : String),
      lookupA (claims.foldl insertGrouped st) k =
        buildGroup k (lookupA st k)
          (claims.filter fun c => c.parent_claim_core_id = k) := by
  induction claims with
  | nil =>
      intro st k
      rcases h : lookupA st k with _ | g0
      · simp only [List.foldl_nil, List.filter_nil, h, buildGroup_none_nil]
      · simp only [List.foldl_nil, List.filter_nil, h, buildGroup_some, List.foldl_nil]
  | cons c rest ih =>
      intro st k
      rw [List.foldl_cons, ih, insertGrouped_lookup]
      by_cases h : k = c.parent_claim_core_id
      · rw [if_pos h]
        have hpc : decide (c.parent_claim_core_id = k) = true := decide_eq_true h.symm
        rw [List.filter_cons, hpc, if_pos rfl]
        rcases hst : lookupA st k with _ | g0
        · rw [buildGroup_cons, buildGroup_some, List.foldl_cons]
        · rw [buildGroup_cons, buildGroup_some, List.foldl_cons]
      · rw [if_neg h]
        have hpc : decide (c.parent_claim_core_id = k) = false :=
          decide_eq_false (fun he => h he.symm)
        rw [List.filter_cons, hpc, if_neg (by simp)]

lemma insertGrouped_keys (st : List (String × ParentGroup)) (c : Claim) :
    (insertGrouped st c).map Prod.fst =
      if c.parent_claim_core_id ∈ st.map Prod.fst then st.map Prod.fst
      else st.map Prod.fst ++ [c.parent_claim_core_id] := by
  induction st with
  | nil => simp [insertGrouped]
  | cons p rest ih =>
      obtain ⟨k0, g0⟩ := p
      by_cases hc : k0 = c.parent_claim_core_id
      · simp only [insertGrouped, if_pos hc, List.map_cons]
        rw [if_pos]
        simp [hc]
      · simp only [insertGrouped, if_neg hc, List.map_cons, ih]
        by_cases hm : c.parent_claim_core_id ∈ rest.map Prod.fst
        · rw [if_pos hm, if_pos]
          simp [hm]
        · rw [if_neg hm, if_neg]
          · simp
          · simp only [List.mem_cons]
            rintro (he | hm2)
            · exact hc he.symm
            · exact hm hm2

lemma rawFold_keys_nodup (claims : List Claim) :
    ∀ st : List (String × ParentGroup), (st.map Prod.fst).Nodup →
      ((claims.foldl insertGrouped st).map Prod.fst).Nodup := by
  induction claims with
  | nil => intro st h; exact h
  | cons c rest ih =>
      intro st h
      rw [List.foldl_cons]
      refine ih _ ?_
      rw [insertGrouped_keys]
      by_cases hm : c.parent_claim_core_id ∈ st.map Prod.fst
      · rw [if_pos hm]
        exact h
      · rw [if_neg hm]
        simp [List.nodup_append, h, hm]

lemma rawFold_keys_mem (claims : List Claim) :
    ∀ (st : List (String × ParentGroup)) (k : String),
      (k ∈ (claims.foldl insertGrouped st).map Prod.fst ↔
        k ∈ st.map Prod.fst ∨ ∃ c ∈ claims, c.parent_claim_core_id = k) := by
  induction claims with
  | nil =>
      intro st k
      simp
  | cons c rest ih =>
      intro st k
      rw [List.foldl_cons, ih, insertGrouped_keys]
      by_cases hm : c.parent_claim_core_id ∈ st.map Prod.fst
      · rw [if_pos hm]
        constructor
        · rintro (hk | ⟨c2, hc2, rfl⟩)
          · exact Or.inl hk
          · exact Or.inr ⟨c2, List.mem_cons_of_mem _ hc2, rfl⟩
        · rintro (hk | ⟨c2, hc2, rfl⟩)
          · exact Or.inl hk
          · rcases List.mem_cons.mp hc2 with rfl | hc3
            · exact Or.inl hm
            · exact Or.inr ⟨c2, hc3, rfl⟩
      · rw [if_neg hm]
        constructor
        · rintro (hk | ⟨c2, hc2, rfl⟩)
          · rcases List.mem_append.mp hk with hk1 | hk2
            · exact Or.inl hk1
            · have hke : k = c.parent_claim_core_id := by simpa using hk2
              exact Or.inr ⟨c, List.mem_cons_self _ _, hke.symm⟩
          · exact Or.inr ⟨c2, List.mem_cons_of_mem _ hc2, rfl⟩
        · rintro (hk | ⟨c2, hc2, rfl⟩)
          · exact Or.inl (List.mem_append.mpr (Or.inl hk))
          · rcases List.mem_cons.mp hc2 with rfl | hc3
            · exact Or.inl (List.mem_append.mpr (Or.inr (by simp)))
            · exact Or.inr ⟨c2, hc3, rfl⟩

lemma mem_iff_lookupA {l : List (String × ParentGroup)}
    (h : (l.map Prod.fst).Nodup) (k : String) (g : ParentGroup) :
    (k, g) ∈ l ↔ lookupA l k = some g := by
  induction l with
  | nil => simp [lookupA]
  | cons p rest ih =>
      obtain ⟨k0, g0⟩ := p
      simp only [List.map_cons, List.nodup_cons] at h
      by_cases hk : k0 = k
      · subst hk
        rw [show lookupA ((k0, g0) :: rest) k0 = some g0 from by simp [lookupA]]
        constructor
        · intro hmem
          rcases List.mem_cons.mp hmem with he | hmem2
          · injection he with h1 h2
            rw [h2]
          · exact absurd (List.mem_map.mpr ⟨(k0, g), hmem2, rfl⟩) h.1
        · intro he
          injection he with h2
          rw [← h2]
          exact List.mem_cons_self _ _
      · rw [show lookupA ((k0, g0) :: rest) k = lookupA rest k from by simp [lookupA, hk]]
        rw [← ih h.2]
        constructor
        · intro hmem
          rcases List.mem_cons.mp hmem with he | hmem2
          · injection he with h1 h2
            exact absurd h1.symm hk
          · exact hmem2
        · exact fun hmem => List.mem_cons_of_mem _ hmem

lemma lexLeCh_total (a : List Char) : ∀ b, lexLeCh a b = true ∨ lexLeCh b a = true := by
  induction a with
  | nil => intro b; exact Or.inl rfl
  | cons x as ih =>
      intro b
      cases b with
      | nil => exact Or.inr rfl
      | cons y bs =>
          by_cases hxy : x.toNat < y.toNat
          · exact Or.inl (by simp [lexLeCh, hxy])
          · by_cases hyx : y.toNat < x.toNat
            · exact Or.inr (by simp [lexLeCh, hyx, hxy])
            · rcases ih bs with h | h
              · exact Or.inl (by simp [lexLeCh, hxy, hyx, h])
              · exact Or.inr (by simp [lexLeCh, hxy, hyx, h])

lemma lexLeCh_trans (a : List Char) :
    ∀ b c, lexLeCh a b = true → lexLeCh b c = true → lexLeCh a c = true := by
  induction a with
  | nil => intro b c _ _; rfl
  | cons x as ih =>
      intro b c hab hbc
      cases b with
      | nil => simp [lexLeCh] at hab
      | cons y bs =>
          cases c with
          | nil => simp [lexLeCh] at hbc
          | cons z cs =>
              simp only [lexLeCh] at hab hbc ⊢
              by_cases hxy : x.toNat < y.toNat
              · by_cases hyz : y.toNat < z.toNat
                · rw [if_pos (by omega : x.toNat < z.toNat)]
                · by_cases hzy : z.toNat < y.toNat
                  · rw [if_neg hyz, if_pos hzy] at hbc
                    simp at hbc
                  · rw [if_pos (by omega : x.toNat < z.toNat)]
              · by_cases hyx : y.toNat < x.toNat
                · rw [if_neg hxy, if_pos hyx] at hab
                  simp at hab
                · by_cases hyz : y.toNat < z.toNat
                  · rw [if_pos (by omega : x.toNat < z.toNat)]
                  · by_cases hzy : z.toNat < y.toNat
                    · rw [if_neg hyz, if_pos hzy] at hbc
                      simp at hbc
                    · rw [if_neg hxy, if_neg hyx] at hab
                      rw [if_neg hyz, if_neg hzy] at hbc
                      rw [if_neg (by omega : ¬ x.toNat < z.toNat),
                        if_neg (by omega : ¬ z.toNat < x.toNat)]
                      exact ih bs cs hab hbc

lemma strLe_total (a b : String) : strLe a b = true ∨ strLe b a = true :=
  lexLeCh_total a.data b.data

lemma strLe_trans {a b c : String} (hab : strLe a b = true) (hbc : strLe b c = true) :
    strLe a c = true :=
  lexLeCh_trans a.data b.data c.data hab hbc

lemma insortPair_perm (p : String × ParentGroup) (l : List (String × ParentGroup)) :
    List.Perm (insortPair p l) (p :: l) := by
  induction l with
  | nil => exact List.Perm.refl _
  | cons q rest ih =>
      unfold insortPair
      by_cases h : strLe p.1 q.1
      · rw [if_pos h]
      · rw [if_neg h]
        exact (List.Perm.cons q ih).trans (List.Perm.swap p q rest)

lemma sortPairs_perm (l : List (String × ParentGroup)) : List.Perm (sortPairs l) l := by
  induction l with
  | nil => exact List.Perm.refl _
  | cons p rest ih =>
      unfold sortPairs
      exact (insortPair_perm p (rest.foldr insortPair [])).trans (List.Perm.cons p ih)

lemma insortPair_mem {x p : String × ParentGroup} {l : List (String × ParentGroup)}
    (h : x ∈ insortPair p l) : x = p ∨ x ∈ l := by
  have := (insortPair_perm p l).mem_iff.mp h
  simpa using this

lemma insortPair_sorted (p : String × ParentGroup) (l : List (String × ParentGroup))
    (h : l.Pairwise (fun a b => strLe a.1 b.1 = true)) :
    (insortPair p l).Pairwise (fun a b => strLe a.1 b.1 = true) := by
  induction l with
  | nil => simp [insortPair]
  | cons q rest ih =>
      unfold insortPair
      rcases List.pairwise_cons.mp h with ⟨hq, hrest⟩
      by_cases hle : strLe p.1 q.1
      · rw [if_pos hle]
        refine List.pairwise_cons.mpr ⟨?_, h⟩
        intro x hx
        rcases List.mem_cons.mp hx with rfl | hx2
        · exact hle
        · exact strLe_trans hle (hq x hx2)
      · rw [if_neg hle]
        refine List.pairwise_cons.mpr ⟨?_, ih hrest⟩
        intro x hx
        rcases insortPair_mem hx with hxp | hx2
        · rw [hxp]
          rcases strLe_total p.1 q.1 with hpq | hqp
          · exact absurd hpq hle
          · exact hqp
        · exact hq x hx2

lemma sortPairs_sorted (l : List (String × ParentGroup)) :
    (sortPairs l).Pairwise (fun a b => strLe a.1 b.1 = true) := by
  induction l with
  | nil => simp [sortPairs]
  | cons p rest ih =>
      unfold sortPairs
      exact insortPair_sorted p (rest.foldr insortPair []) ih

/-- C2: `group_by_parent` returns the empty mapping on empty input; its keys
are distinct and iterated in ascending lexicographic order; the bucket
predicates partition every claim (exactly one bucket, by the VOID-first
priority rule); every claim's parent key is present; and each group carries
its key as parent_id with buckets equal to the arrival-ordered filters of the
input. -/
theorem group_by_parent_spec (claims : List Claim) :
    group_by_parent ([] : List Claim) = [] ∧
    ((group_by_parent claims).map Prod.fst).Nodup ∧
    ((group_by_parent claims).map Prod.fst).Pairwise (fun a b => strLe a b = true) ∧
    (∀ c : Claim,
      (goesVoid c = true ∧ goesAdjust c = false ∧ goesPaid c = false) ∨
      (goesVoid c = false ∧ goesAdjust c = true ∧ goesPaid c = false) ∨
      (goesVoid c = false ∧ goesAdjust c = false ∧ goesPaid c = true)) ∧
    (∀ c ∈ claims, ∃ g, (c.parent_claim_core_id, g) ∈ group_by_parent claims) ∧
    (∀ k g, (k, g) ∈ group_by_parent claims →
      g.parent_id = k ∧
      g.void_claims = (claims.filter fun c => c.parent_claim_core_id = k).filter goesVoid ∧
      g.adjust_claims = (claims.filter fun c => c.parent_claim_core_id = k).filter goesAdjust ∧
      g.paid_claims = (claims.filter fun c => c.parent_claim_core_id = k).filter goesPaid) := by
  have hraw_nodup : ((claims.foldl insertGrouped []).map Prod.fst).Nodup :=
    rawFold_keys_nodup claims [] (by simp)
  have hperm : List.Perm (sortPairs (claims.foldl insertGrouped []))
      (claims.foldl insertGrouped []) := sortPairs_perm _
  have hkeysperm : List.Perm ((group_by_parent claims).map Prod.fst)
      ((claims.foldl insertGrouped []).map Prod.fst) := hperm.map Prod.fst
  refine ⟨rfl, ?_, ?_, claim_bucket_partition, ?_, ?_⟩
  · exact hkeysperm.nodup_iff.mpr hraw_nodup
  · exact List.pairwise_map.mpr (sortPairs_sorted _)
  · intro c hc
    have hkey : c.parent_claim_core_id ∈ (claims.foldl insertGrouped []).map Prod.fst :=
      (rawFold_keys_mem claims [] c.parent_claim_core_id).mpr (Or.inr ⟨c, hc, rfl⟩)
    rcases List.mem_map.mp hkey with ⟨x, hx, hfst⟩
    refine ⟨x.2, ?_⟩
    have hx2 : x ∈ group_by_parent claims := hperm.mem_iff.mpr hx
    have hxe : (c.parent_claim_core_id, x.2) = x := by
      rw [← hfst]
    rw [hxe]
    exact hx2
  · intro k g hg
    have hgraw : (k, g) ∈ claims.foldl insertGrouped [] := hperm.mem_iff.mp hg
    have hlook : lookupA (claims.foldl insertGrouped []) k = some g :=
      (mem_iff_lookupA hraw_nodup k g).mp hgraw
    rw [raw_lookup claims [] k] at hlook
    rcases hf : claims.filter (fun c => c.parent_claim_core_id = k) with _ | ⟨c0, cs⟩
    · rw [hf] at hlook
      rw [show lookupA ([] : List (String × ParentGroup)) k = none from rfl] at hlook
      rw [buildGroup_none_nil] at hlook
      exact absurd hlook (by simp)
    · rw [hf] at hlook
      rw [show lookupA ([] : List (String × ParentGroup)) k = none from rfl] at hlook
      rw [buildGroup_cons] at hlook
      injection hlook with hlook2
      obtain ⟨hp, hv, ha, hd⟩ := addFold_buckets (c0 :: cs)
        (Option.getD none { parent_id := k })
      rw [← hlook2, hf]
      refine ⟨hp, ?_, ?_, ?_⟩
      · rw [hv]
        rfl
      · rw [ha]
        rfl
      · rw [hd]
        rfl

/-- C2 witness: the three scenario claims for PARENT-1 land in the paid,
adjust and void buckets respectively of the single PARENT-1 group. -/
theorem group_by_parent_spec_witness :
    ∃ g, ("PARENT-1", g) ∈ group_by_parent scClaims ∧
      g.paid_claims = [scClaim1] ∧
      g.adjust_claims = [scClaim2] ∧
      g.void_claims = [scClaim3] := by
  have h := group_by_parent_spec scClaims
  obtain ⟨g, hg⟩ := h.2.2.2.2.1 scClaim1 (by simp [scClaims])
  have hg1 : ("PARENT-1", g) ∈ group_by_parent scClaims := hg
  have hchar := h.2.2.2.2.2 "PARENT-1" g hg1
  refine ⟨g, hg1, ?_, ?_, ?_⟩
  · rw [hchar.2.2.2]
    decide
  · rw [hchar.2.2.1]
    decide
  · rw [hchar.2.1]
    decide
